import Mathlib

/-!
Verification development for the document retrieval pipeline
(research-report-generation): a shallow embedding of the chunker
(`src/api/retriever/chunking.py`), the FAISS-backed vector store manager
(`src/api/retriever/vectorstore.py`), and the retriever entry points
(`src/api/retriever/retriever.py`, `src/api/retriever/retrieval.py`),
together with proofs of the spec's testable properties.

Python strings are Lean `String`s, metadata dicts are association lists,
machine-word arithmetic inside MD5 is `Nat` reduced modulo `2^32`, and
Python exceptions are an explicit `Except` result.  External collaborators
(the LangChain text splitter, the `as_retriever` handle constructors) are
parameters of the functions that call them.
-/

set_option maxRecDepth 8192
set_option maxHeartbeats 1000000

namespace RRG

/-- Scalar metadata values that occur in the repository's documents:
Python strings and ints. -/
inductive MetaVal
  | str (s : String)
  | int (n : Int)
deriving DecidableEq, Repr

/-- Python `str(...)` on a metadata value. -/
def MetaVal.toStr : MetaVal → String
  | .str s => s
  | .int n => toString n

/-- A Python metadata dict, as an association list (first match wins on
lookup; `mset` keeps at most one binding per key). -/
abbrev Metadata := List (String × MetaVal)

/-- Python `metadata.get(k)` (returning `None` when absent). -/
def mget (m : Metadata) (k : String) : Option MetaVal :=
  (m.find? (fun p => p.1 == k)).map (·.2)

/-- Python `metadata[k] = v` / one key of `metadata.update({...})`. -/
def mset (m : Metadata) (k : String) (v : MetaVal) : Metadata :=
  (m.filter (fun p => !(p.1 == k))) ++ [(k, v)]

/-- A LangChain `Document`: `page_content` plus a metadata dict. -/
structure Doc where
  page_content : String
  metadata : Metadata
deriving DecidableEq, Repr

theorem find?_filter_ne_key (t : Metadata) (k k' : String) (hne : k' ≠ k) :
    List.find? (fun p => p.1 == k') (t.filter (fun p => !(p.1 == k)))
      = List.find? (fun p => p.1 == k') t := by
  induction t with
  | nil => rfl
  | cons p t ih =>
    rw [List.filter_cons]
    by_cases h : p.1 = k
    · have h1 : (!(p.1 == k)) = false := by simp [h]
      have h2 : ¬ ((p.1 == k') = true) := by simp [h]; exact Ne.symm hne
      rw [h1, if_neg (by simp),
        List.find?_cons_of_neg (p := fun (q : String × MetaVal) => q.1 == k') _ h2]
      exact ih
    · have h1 : (!(p.1 == k)) = true := by simp [h]
      rw [h1, if_pos rfl]
      by_cases h2 : p.1 = k'
      · have h2' : (p.1 == k') = true := by simp [h2]
        rw [List.find?_cons_of_pos (p := fun (q : String × MetaVal) => q.1 == k') _ h2',
          List.find?_cons_of_pos (p := fun (q : String × MetaVal) => q.1 == k') _ h2']
      · have h2' : ¬ ((p.1 == k') = true) := by simp [h2]
        rw [List.find?_cons_of_neg (p := fun (q : String × MetaVal) => q.1 == k') _ h2',
          List.find?_cons_of_neg (p := fun (q : String × MetaVal) => q.1 == k') _ h2']
        exact ih

theorem mget_mset_same (m : Metadata) (k : String) (v : MetaVal) :
    mget (mset m k v) k = some v := by
  unfold mget mset
  rw [List.find?_append]
  have hnone : List.find? (fun p => p.1 == k)
      (m.filter (fun p => !(p.1 == k))) = none := by
    rw [List.find?_eq_none]
    intro x hx
    have hmem := List.of_mem_filter hx
    simp at hmem ⊢
    exact hmem
  rw [hnone]
  simp [List.find?]

theorem mget_mset_other (m : Metadata) (k k' : String) (v : MetaVal)
    (hne : k' ≠ k) : mget (mset m k v) k' = mget m k' := by
  unfold mget mset
  rw [List.find?_append, find?_filter_ne_key m k k' hne]
  cases hf : List.find? (fun p => p.1 == k') m with
  | some val => simp
  | none =>
    have hk : ¬ (((k, v) : String × MetaVal).1 == k') = true := by
      simp; exact Ne.symm hne
    rw [List.find?_cons_of_neg (p := fun (q : String × MetaVal) => q.1 == k') _ hk]
    simp

/-! ### UTF-8 and MD5

`_make_chunk_uid` hashes `doc.page_content.encode("utf-8")` with
`hashlib.md5` and keeps the first 12 hex characters.  We embed both the
UTF-8 encoder and MD5 (RFC 1321) executably over lists of byte values. -/

/-- Standard UTF-8 encoding of one Unicode code point, as byte values. -/
def utf8EncodeChar (c : Char) : List Nat :=
  let n := c.toNat
  if n < 128 then [n]
  else if n < 2048 then [192 + n / 64, 128 + n % 64]
  else if n < 65536 then [224 + n / 4096, 128 + (n / 64) % 64, 128 + n % 64]
  else [240 + n / 262144, 128 + (n / 4096) % 64, 128 + (n / 64) % 64, 128 + n % 64]

/-- Python `s.encode("utf-8")`, as a list of byte values. -/
def utf8Encode (s : String) : List Nat :=
  s.data.foldr (fun c acc => utf8EncodeChar c ++ acc) []

/-- The word modulus of MD5, `2^32`. -/
def M32 : Nat := 4294967296

/-- Left rotation of a 32-bit word. -/
def rotl32 (x n : Nat) : Nat :=
  ((x <<< n) ||| (x >>> (32 - n))) % M32

/-- MD5 sine-derived round constants `K[0..63]` (RFC 1321). -/
def md5K : List Nat :=
  [3614090360, 3905402710, 606105819, 3250441966, 4118548399, 1200080426,
   2821735955, 4249261313, 1770035416, 2336552879, 4294925233, 2304563134,
   1804603682, 4254626195, 2792965006, 1236535329, 4129170786, 3225465664,
   643717713, 3921069994, 3593408605, 38016083, 3634488961, 3889429448,
   568446438, 3275163606, 4107603335, 1163531501, 2850285829, 4243563512,
   1735328473, 2368359562, 4294588738, 2272392833, 1839030562, 4259657740,
   2763975236, 1272893353, 4139469664, 3200236656, 681279174, 3936430074,
   3572445317, 76029189, 3654602809, 3873151461, 530742520, 3299628645,
   4096336452, 1126891415, 2878612391, 4237533241, 1700485571, 2399980690,
   4293915773, 2240044497, 1873313359, 4264355552, 2734768916, 1309151649,
   4149444226, 3174756917, 718787259, 3951481745]

/-- MD5 per-round left-rotation amounts `s[0..63]` (RFC 1321). -/
def md5S : List Nat :=
  [7, 12, 17, 22, 7, 12, 17, 22, 7, 12, 17, 22, 7, 12, 17, 22,
   5, 9, 14, 20, 5, 9, 14, 20, 5, 9, 14, 20, 5, 9, 14, 20,
   4, 11, 16, 23, 4, 11, 16, 23, 4, 11, 16, 23, 4, 11, 16, 23,
   6, 10, 15, 21, 6, 10, 15, 21, 6, 10, 15, 21, 6, 10, 15, 21]

/-- Little-endian 32-bit word from four bytes. -/
def le32 (b0 b1 b2 b3 : Nat) : Nat :=
  b0 + b1 * 256 + b2 * 65536 + b3 * 16777216

/-- Group a byte list into little-endian 32-bit words. -/
def bytesToWords : List Nat → List Nat
  | b0 :: b1 :: b2 :: b3 :: rest => le32 b0 b1 b2 b3 :: bytesToWords rest
  | _ => []

/-- The 8 little-endian bytes of the 64-bit message bit length. -/
def lenBytes64 (n : Nat) : List Nat :=
  [n % 256, n / 256 % 256, n / 65536 % 256, n / 16777216 % 256,
   n / 4294967296 % 256, n / 1099511627776 % 256,
   n / 281474976710656 % 256, n / 72057594037927936 % 256]

/-- MD5 padding: append `0x80`, zero bytes to 56 mod 64, then the bit
length in 8 little-endian bytes. -/
def md5Pad (msg : List Nat) : List Nat :=
  msg ++ [128] ++ List.replicate ((120 - (msg.length + 1) % 64) % 64) 0
      ++ lenBytes64 (8 * msg.length)

/-- The word index `g` used by MD5 operation `i`. -/
def md5G (i : Nat) : Nat :=
  if i < 16 then i
  else if i < 32 then (5 * i + 1) % 16
  else if i < 48 then (3 * i + 5) % 16
  else 7 * i % 16

/-- One of the 64 MD5 operations on the running state `(A, B, C, D)`,
over the 16 message words `M` (bitwise NOT is XOR with `2^32 - 1`). -/
def md5Step (M : List Nat) (st : Nat × Nat × Nat × Nat) (i : Nat) :
    Nat × Nat × Nat × Nat :=
  let (A, B, C, D) := st
  let F :=
    if i < 16 then (B &&& C) ||| ((B ^^^ 4294967295) &&& D)
    else if i < 32 then (D &&& B) ||| ((D ^^^ 4294967295) &&& C)
    else if i < 48 then B ^^^ C ^^^ D
    else C ^^^ (B ||| (D ^^^ 4294967295))
  let F2 := (F + A + md5K.getD i 0 + M.getD (md5G i) 0) % M32
  (D, (B + rotl32 F2 (md5S.getD i 0)) % M32, B, C)

/-- Process one 512-bit block: run the 64 operations and add the result
into the chaining state. -/
def md5Block (st : Nat × Nat × Nat × Nat) (M : List Nat) :
    Nat × Nat × Nat × Nat :=
  let (a0, b0, c0, d0) := st
  let (A, B, C, D) := (List.range 64).foldl (md5Step M) st
  ((a0 + A) % M32, (b0 + B) % M32, (c0 + C) % M32, (d0 + D) % M32)

/-- Process `n` 64-byte blocks of the padded message. -/
def md5Blocks : Nat → Nat × Nat × Nat × Nat → List Nat → Nat × Nat × Nat × Nat
  | 0, st, _ => st
  | n + 1, st, bytes =>
      md5Blocks n (md5Block st (bytesToWords (bytes.take 64))) (bytes.drop 64)

/-- Lowercase hex digit for a value below 16. -/
def hexDigit (n : Nat) : Char :=
  "0123456789abcdef".data.getD n '0'

/-- Two lowercase hex characters of one byte. -/
def byteToHexChars (b : Nat) : List Char :=
  [hexDigit (b / 16), hexDigit (b % 16)]

/-- The four little-endian bytes of a 32-bit word. -/
def wordLEBytes (w : Nat) : List Nat :=
  [w % 256, w / 256 % 256, w / 65536 % 256, w / 16777216 % 256]

/-- MD5 digest of a byte list, as the usual 32-character lowercase hex
string. -/
def md5Hex (msg : List Nat) : String :=
  let padded := md5Pad msg
  let (a, b, c, d) :=
    md5Blocks (padded.length / 64)
      (1732584193, 4023233417, 2562383102, 271733878) padded
  String.mk
    ((wordLEBytes a ++ wordLEBytes b ++ wordLEBytes c ++ wordLEBytes d).foldr
      (fun b acc => byteToHexChars b ++ acc) [])

/-- Python `hashlib.md5(s.encode("utf-8")).hexdigest()`. -/
def md5HexOfString (s : String) : String :=
  md5Hex (utf8Encode s)

example : md5HexOfString "" = "d41d8cd98f00b204e9800998ecf8427e" := by decide
example : md5HexOfString "abc" = "900150983cd24fb0d6963f7d28e17f72" := by decide

/-! ### Chunk identity (`VectorStoreManager._make_chunk_uid`) -/

/-- Embeds `VectorStoreManager._make_chunk_uid`: stable chunk id built from
file name / source, page, chunk id and a 12-hex-character content hash. -/
def makeChunkUid (doc : Doc) : String :=
  let file_name :=
    (((mget doc.metadata "file_name").orElse
        (fun _ => mget doc.metadata "source")).getD (MetaVal.str "unknown")).toStr
  let page :=
    (((mget doc.metadata "page").orElse
        (fun _ => mget doc.metadata "page_number")).getD (MetaVal.str "")).toStr
  let chunk_id := ((mget doc.metadata "chunk_id").getD (MetaVal.str "")).toStr
  let content_hash := (md5HexOfString doc.page_content).take 12
  file_name ++ "::p" ++ page ++ "::c" ++ chunk_id ++ "::" ++ content_hash

/-- The `file_name` local of `_make_chunk_uid`
(`str(metadata.get("file_name", metadata.get("source", "unknown")))`). -/
def uidFileName (doc : Doc) : String :=
  (((mget doc.metadata "file_name").orElse
      (fun _ => mget doc.metadata "source")).getD (MetaVal.str "unknown")).toStr

/-- The `page` local of `_make_chunk_uid`
(`str(metadata.get("page", metadata.get("page_number", "")))`). -/
def uidPage (doc : Doc) : String :=
  (((mget doc.metadata "page").orElse
      (fun _ => mget doc.metadata "page_number")).getD (MetaVal.str "")).toStr

/-- The `chunk_id` local of `_make_chunk_uid`
(`str(metadata.get("chunk_id", ""))`). -/
def uidChunkId (doc : Doc) : String :=
  ((mget doc.metadata "chunk_id").getD (MetaVal.str "")).toStr

/-- The 12-character truncated content hash of `_make_chunk_uid`
(`hashlib.md5(content.encode("utf-8")).hexdigest()[:12]`). -/
def contentHash12 (s : String) : String :=
  (md5HexOfString s).take 12

theorem makeChunkUid_eq_fields (doc : Doc) :
    makeChunkUid doc
      = uidFileName doc ++ "::p" ++ uidPage doc ++ "::c" ++ uidChunkId doc
          ++ "::" ++ contentHash12 doc.page_content := rfl

/-! ### The FAISS collaborator

`VectorStoreManager` stores documents through LangChain's FAISS wrapper.
We embed the parts of its observable behavior that the manager relies on:
`index.ntotal` counts every inserted vector, and `docstore._dict` maps ids
to documents (a Python dict: one entry per key, insertion order, and
`InMemoryDocstore.add` raises `ValueError` on ids that already exist). -/

/-- Python exceptions raised along the modelled paths.  `valueError` covers
the repository's own validation failures (the spec's `InvalidInput`) and
the docstore's duplicate-id error; `attributeError` is a failed attribute
lookup. -/
inductive Err
  | valueError (msg : String)
  | attributeError (attr : String)
deriving DecidableEq, Repr

/-- An in-memory FAISS vector store: the docstore dict and the vector
count `index.ntotal`. -/
structure VectorStore where
  docstore : List (String × Doc)
  ntotal : Nat
deriving DecidableEq, Repr

/-- Python `d[k] = v` on a `str → Document` dict: overwrite in place if
the key exists, else append. -/
def dictInsert (m : List (String × Doc)) (k : String) (v : Doc) :
    List (String × Doc) :=
  if m.any (fun p => p.1 == k) then
    m.map (fun p => if p.1 == k then (k, v) else p)
  else m ++ [(k, v)]

/-- Python `{id_: doc for id_, doc in zip(ids, documents)}`: a dict built
from pairs, later values winning on duplicate keys. -/
def dictOfPairs (l : List (String × Doc)) : List (String × Doc) :=
  l.foldl (fun m p => dictInsert m p.1 p.2) []

/-- LangChain `FAISS.__add` (shared by `from_documents`/`from_embeddings`
and `add_documents`/`add_embeddings`): `docstore.add` rejects ids already
present, then every embedding is appended to the index. -/
def faissAdd (vs : VectorStore) (docs : List Doc) (ids : List String) :
    Except Err VectorStore :=
  let texts := dictOfPairs (ids.zip docs)
  if texts.any (fun p => vs.docstore.any (fun q => q.1 == p.1)) then
    .error (.valueError "Tried to add ids that already exist")
  else
    .ok { docstore := vs.docstore ++ texts, ntotal := vs.ntotal + docs.length }

/-- LangChain `FAISS.from_documents`/`from_embeddings` with explicit ids:
build a fresh store from the first batch. -/
def faissFromDocuments (docs : List Doc) (ids : List String) : VectorStore :=
  { docstore := dictOfPairs (ids.zip docs), ntotal := docs.length }

/-! ### `VectorStoreManager` -/

/-- The state a `VectorStoreManager` instance sees: the in-memory handle
`self._vectorstore`, the persisted index under `persist_directory` (`some`
iff `index.faiss` exists on disk), and whether the persist directory
itself exists. -/
structure ManagerState where
  store : Option VectorStore
  disk : Option VectorStore
  dirExists : Bool
deriving DecidableEq, Repr

/-- Embeds `VectorStoreManager.get_or_create`: return the in-memory handle if
present; otherwise `os.makedirs(persist_directory, exist_ok=True)`, then
load from disk iff `index.faiss` exists, else keep the handle `None`. -/
def getOrCreate (st : ManagerState) : ManagerState × Option VectorStore :=
  match st.store with
  | some vs => (st, some vs)
  | none =>
    match st.disk with
    | some d => ({ st with dirExists := true, store := some d }, some d)
    | none => ({ st with dirExists := true, store := none }, none)

/-- Embeds `VectorStoreManager._existing_ids`: the keys of `docstore._dict`. -/
def existingIds (vs : VectorStore) : List String :=
  vs.docstore.map (fun p => p.1)

/-- Embeds `VectorStoreManager._persist`: `save_local` writes the in-memory store
(and its directory) to disk; a `None` handle is a no-op. -/
def persistStore (st : ManagerState) : ManagerState :=
  match st.store with
  | none => st
  | some vs => { st with disk := some vs, dirExists := true }

/-- Metadata enrichment step of both add operations:
`doc.metadata["chunk_uid"] = chunk_uid` for each kept document. -/
def attachUids (docs : List Doc) (ids : List String) : List Doc :=
  (docs.zip ids).map
    (fun p => { p.1 with metadata := mset p.1.metadata "chunk_uid" (.str p.2) })

/-- Embeds `VectorStoreManager.add_documents`: validate, resolve the handle,
compute stable ids, optionally drop chunks whose id is already stored
(returning the store unchanged if nothing is left), attach `chunk_uid`
metadata, then create or append and persist.  The Python code filters the
parallel lists `documents`/`ids` through `keep_idx`; here the two lists
are zipped and filtered together, which keeps the same elements. -/
def addDocuments (st : ManagerState) (documents : List Doc)
    (deduplicate : Bool) : ManagerState × Except Err VectorStore :=
  if documents.isEmpty then
    (st, .error (.valueError "No documents provided for ingestion."))
  else
    let st := (getOrCreate st).1
    let ids := documents.map makeChunkUid
    match st.store, deduplicate with
    | some vs, true =>
      let existing := existingIds vs
      let kept := (documents.zip ids).filter
        (fun p => !(existing.contains p.2))
      if kept.isEmpty then
        (st, .ok vs)
      else
        let documents := kept.map (fun p => p.1)
        let ids := kept.map (fun p => p.2)
        let documents := attachUids documents ids
        match faissAdd vs documents ids with
        | .error e => (st, .error e)
        | .ok vs' =>
          let st := { st with store := some vs' }
          (persistStore st, .ok vs')
    | some vs, false =>
      let documents := attachUids documents ids
      match faissAdd vs documents ids with
      | .error e => (st, .error e)
      | .ok vs' =>
        let st := { st with store := some vs' }
        (persistStore st, .ok vs')
    | none, _ =>
      let documents := attachUids documents ids
      let vs' := faissFromDocuments documents ids
      let st := { st with store := some vs' }
      (persistStore st, .ok vs')

/-- Embeds `VectorStoreManager.add_documents_with_embeddings`: same flow as
`add_documents` but with caller-supplied embedding vectors, validated for
emptiness and matching length before anything else; dedup filters the
document, embedding and id lists in parallel. -/
def addDocumentsWithEmbeddings (st : ManagerState) (documents : List Doc)
    (embeddings : List (List Int)) (deduplicate : Bool) :
    ManagerState × Except Err VectorStore :=
  if documents.isEmpty || embeddings.isEmpty then
    (st, .error (.valueError "Documents and embeddings are required."))
  else if documents.length ≠ embeddings.length then
    (st, .error (.valueError "Documents and embeddings length mismatch."))
  else
    let st := (getOrCreate st).1
    let ids := documents.map makeChunkUid
    match st.store, deduplicate with
    | some vs, true =>
      let existing := existingIds vs
      let kept := ((documents.zip embeddings).zip ids).filter
        (fun p => !(existing.contains p.2))
      if kept.isEmpty then
        (st, .ok vs)
      else
        let documents := kept.map (fun p => p.1.1)
        let ids := kept.map (fun p => p.2)
        let documents := attachUids documents ids
        match faissAdd vs documents ids with
        | .error e => (st, .error e)
        | .ok vs' =>
          let st := { st with store := some vs' }
          (persistStore st, .ok vs')
    | some vs, false =>
      let documents := attachUids documents ids
      match faissAdd vs documents ids with
      | .error e => (st, .error e)
      | .ok vs' =>
        let st := { st with store := some vs' }
        (persistStore st, .ok vs')
    | none, _ =>
      let documents := attachUids documents ids
      let vs' := faissFromDocuments documents ids
      let st := { st with store := some vs' }
      (persistStore st, .ok vs')

/-- Embeds `VectorStoreManager.count`: resolve the handle if needed, return 0
when no index exists, else `index.ntotal`. -/
def countStore (st : ManagerState) : ManagerState × Nat :=
  match st.store with
  | some vs => (st, vs.ntotal)
  | none =>
    let st := (getOrCreate st).1
    match st.store with
    | some vs => (st, vs.ntotal)
    | none => (st, 0)

/-! ### `DocumentChunker`

The text splitter itself is the LangChain collaborator
`RecursiveCharacterTextSplitter`; `chunk_documents` calls
`split_documents([doc])` per input document, so the splitter enters the
model as a parameter `split : Doc → List Doc`. -/

/-- The body of the inner loop of `DocumentChunker.chunk_documents`:
`chunk.metadata.update({"chunk_id": idx, "total_chunks": total_chunks})`. -/
def enrichChunk (total_chunks : Nat) (p : Nat × Doc) : Doc :=
  { p.2 with
    metadata := mset (mset p.2.metadata "chunk_id" (MetaVal.int (Int.ofNat p.1)))
      "total_chunks" (MetaVal.int (Int.ofNat total_chunks)) }

/-- Embeds `DocumentChunker.chunk_documents`: empty input is a logged no-op
returning `[]`; otherwise each document is split and its chunks are
enumerated with `chunk_id`/`total_chunks` metadata, concatenated in input
order. -/
def chunkDocuments (split : Doc → List Doc) (documents : List Doc) :
    List Doc :=
  if documents.isEmpty then []
  else
    documents.flatMap (fun doc =>
      let split_docs := split doc
      (split_docs.enum).map (enrichChunk split_docs.length))

/-! ### Retrievers

`SimpleRAGRetriever`, `SimpleRAGRetrieverWithMMR` and
`SimpleRAGRetrieverWithThreshold` (`retriever.py`) all call
`self.vector_store_manager.get_vector_store()`; attribute lookup on a
`VectorStoreManager` instance resolves against the attributes its class
and `__init__` actually define.  The `as_retriever` handle construction
and the Chroma-based `Retriever.load_retriever` pipeline
(`retrieval.py`) are external collaborators, passed as parameters. -/

/-- A retrieval handle: `retriever.invoke(query)` yields documents. -/
structure Retr where
  invoke : String → List Doc

/-- The attributes a `VectorStoreManager` instance exposes: the fields
set in `__init__` and the methods defined by the class. -/
def vectorStoreManagerAttrs : List String :=
  ["persist_directory", "embedding_fn", "_vectorstore",
   "get_or_create", "add_documents", "add_documents_with_embeddings",
   "_persist", "_existing_ids", "_make_chunk_uid", "count"]

/-- Python attribute lookup on a `VectorStoreManager` instance:
`AttributeError` when the name is not defined. -/
def getattrVSManager (name : String) : Except Err Unit :=
  if vectorStoreManagerAttrs.contains name then .ok ()
  else .error (.attributeError name)

/-- Embeds `SimpleRAGRetriever.get_retriever`: return the cached handle if set;
else call `vector_store_manager.get_vector_store()` and wrap the result
via `as_retriever` (the construction itself is the external
collaborator `asRetriever`). -/
def simpleGetRetriever (cached : Option Retr) (asRetriever : Unit → Retr) :
    Except Err Retr :=
  match cached with
  | some r => .ok r
  | none =>
    match getattrVSManager "get_vector_store" with
    | .error e => .error e
    | .ok _ => .ok (asRetriever ())

/-- Embeds `SimpleRAGRetriever.retrieve`: reject an empty query, then build the
retriever and invoke it. -/
def simpleRetrieve (cached : Option Retr) (asRetriever : Unit → Retr)
    (query : String) : Except Err (List Doc) :=
  if query = "" then .error (.valueError "Query cannot be empty.")
  else
    match simpleGetRetriever cached asRetriever with
    | .error e => .error e
    | .ok r => .ok (r.invoke query)

/-- Embeds `SimpleRAGRetrieverWithMMR.get_retriever` (same shape as the plain
variant; only the external `as_retriever` search kwargs differ). -/
def mmrGetRetriever (cached : Option Retr) (asRetriever : Unit → Retr) :
    Except Err Retr :=
  match cached with
  | some r => .ok r
  | none =>
    match getattrVSManager "get_vector_store" with
    | .error e => .error e
    | .ok _ => .ok (asRetriever ())

/-- Embeds `SimpleRAGRetrieverWithMMR.retrieve`. -/
def mmrRetrieve (cached : Option Retr) (asRetriever : Unit → Retr)
    (query : String) : Except Err (List Doc) :=
  if query = "" then .error (.valueError "Query cannot be empty.")
  else
    match mmrGetRetriever cached asRetriever with
    | .error e => .error e
    | .ok r => .ok (r.invoke query)

/-- Embeds `SimpleRAGRetrieverWithThreshold.get_retriever` (same shape; the
threshold only enters the external search kwargs). -/
def thresholdGetRetriever (cached : Option Retr) (asRetriever : Unit → Retr) :
    Except Err Retr :=
  match cached with
  | some r => .ok r
  | none =>
    match getattrVSManager "get_vector_store" with
    | .error e => .error e
    | .ok _ => .ok (asRetriever ())

/-- Embeds `SimpleRAGRetrieverWithThreshold.retrieve`. -/
def thresholdRetrieve (cached : Option Retr) (asRetriever : Unit → Retr)
    (query : String) : Except Err (List Doc) :=
  if query = "" then .error (.valueError "Query cannot be empty.")
  else
    match thresholdGetRetriever cached asRetriever with
    | .error e => .error e
    | .ok r => .ok (r.invoke query)

/-- Embeds `Retriever.call_retriever` (`retrieval.py`, Chroma pipeline): build
the compression retriever via `load_retriever` (external collaborator)
and invoke it on the query — the method performs no query validation. -/
def callRetriever (loadRetriever : Unit → Retr) (query : String) :
    Except Err (List Doc) :=
  .ok ((loadRetriever ()).invoke query)

/-! ## Theorems -/

theorem string_append_left_cancel {s t u : String} (h : s ++ t = s ++ u) :
    t = u := by
  apply String.ext
  have hd := congrArg String.data h
  rw [String.data_append, String.data_append] at hd
  exact List.append_cancel_left hd

theorem uid_parts_inj {f p c h1 h2 : String}
    (he : f ++ "::p" ++ p ++ "::c" ++ c ++ "::" ++ h1
        = f ++ "::p" ++ p ++ "::c" ++ c ++ "::" ++ h2) : h1 = h2 := by
  have hd := congrArg String.data he
  simp only [String.data_append, List.append_assoc] at hd
  exact String.ext (List.append_cancel_left (List.append_cancel_left
    (List.append_cancel_left (List.append_cancel_left
      (List.append_cancel_left (List.append_cancel_left hd))))))

/-- C4: `_make_chunk_uid` is a pure deterministic function of the chunk's
(`file_name` or `source`, `page` or `page_number`, `chunk_id`, content):
any two chunks with equal values of these derived fields get
byte-identical `chunk_uid` strings. -/
theorem chunk_uid_deterministic (d1 d2 : Doc)
    (hf : uidFileName d1 = uidFileName d2)
    (hp : uidPage d1 = uidPage d2)
    (hc : uidChunkId d1 = uidChunkId d2)
    (hcont : d1.page_content = d2.page_content) :
    makeChunkUid d1 = makeChunkUid d2 := by
  rw [makeChunkUid_eq_fields d1, makeChunkUid_eq_fields d2, hf, hp, hc, hcont]

/-- Witness for C4: two documents with the same identity fields but
different metadata dict layouts (extra key, different order) get the same
uid. -/
theorem chunk_uid_deterministic_witness :
    makeChunkUid
      ⟨"hello", [("file_name", .str "a.txt"), ("chunk_id", .int 0)]⟩
    = makeChunkUid
      ⟨"hello", [("doc_type", .str "adrs"), ("chunk_id", .int 0),
                 ("file_name", .str "a.txt")]⟩ :=
  chunk_uid_deterministic _ _ (by decide) (by decide) (by decide) (by decide)

/-- First of a pair of chunks whose 48-bit truncated MD5 content hashes
collide (`md5("x6524784")` and `md5("x48066310")` share the hex prefix
`cd51f082b6c3`). -/
def collisionDoc1 : Doc :=
  ⟨"x6524784",
   [("file_name", .str "a.txt"), ("page", .int 1), ("chunk_id", .int 0)]⟩

/-- Second chunk of the colliding pair: same identity metadata, different
content. -/
def collisionDoc2 : Doc :=
  ⟨"x48066310",
   [("file_name", .str "a.txt"), ("page", .int 1), ("chunk_id", .int 0)]⟩

/-- Counterexample to C5 as stated: two chunks with identical `file_name`,
`page` and `chunk_id` metadata and different content whose `chunk_uid`s
are nevertheless equal, because the uid only sees the first 12 hex
characters of the MD5 content hash and these contents collide there. -/
theorem chunk_uid_sensitivity_counterexample :
    collisionDoc1.page_content ≠ collisionDoc2.page_content
    ∧ collisionDoc1.metadata = collisionDoc2.metadata
    ∧ makeChunkUid collisionDoc1 = makeChunkUid collisionDoc2 :=
  ⟨by decide, rfl, by decide⟩

/-- C5 (amended): for two chunks that agree on the `file_name`/`source`,
`page` and `chunk_id` fields, the `chunk_uid`s differ whenever the
12-hex-character truncated MD5 hashes of the contents differ (a content
change changes the uid unless the truncated hashes collide). -/
theorem chunk_uid_sensitive_of_hash_ne (d1 d2 : Doc)
    (hf : uidFileName d1 = uidFileName d2)
    (hp : uidPage d1 = uidPage d2)
    (hc : uidChunkId d1 = uidChunkId d2)
    (hh : contentHash12 d1.page_content ≠ contentHash12 d2.page_content) :
    makeChunkUid d1 ≠ makeChunkUid d2 := by
  intro he
  rw [makeChunkUid_eq_fields d1, makeChunkUid_eq_fields d2, hf, hp, hc] at he
  exact hh (uid_parts_inj he)

/-- Witness for the amended C5: a one-character content change with
distinct truncated hashes changes the uid. -/
theorem chunk_uid_sensitive_of_hash_ne_witness :
    makeChunkUid ⟨"a", [("source", .str "doc1.txt"), ("chunk_id", .int 2)]⟩
    ≠ makeChunkUid ⟨"b", [("source", .str "doc1.txt"), ("chunk_id", .int 2)]⟩ :=
  chunk_uid_sensitive_of_hash_ne _ _
    (by decide) (by decide) (by decide) (by decide)

/-- C3: `chunk_documents` on an empty record list returns `[]` (a no-op,
not an error), while `add_documents` on an empty batch fails with
`InvalidInput` (`ValueError`) and leaves the manager state — in
particular, no created index — unchanged. -/
theorem empty_input_handling (split : Doc → List Doc) (st : ManagerState)
    (dedup : Bool) :
    chunkDocuments split [] = []
    ∧ addDocuments st [] dedup
        = (st, .error (.valueError "No documents provided for ingestion.")) :=
  ⟨rfl, rfl⟩

/-- C2: `add_documents_with_embeddings` fails with `InvalidInput`
(`ValueError`) whenever the documents and embeddings lists have different
lengths, and it does so before any I/O: the returned state is exactly the
input state (no directory creation, no load, no index mutation). -/
theorem add_with_embeddings_length_mismatch (st : ManagerState)
    (documents : List Doc) (embeddings : List (List Int)) (dedup : Bool)
    (hlen : documents.length ≠ embeddings.length) :
    ∃ msg, addDocumentsWithEmbeddings st documents embeddings dedup
        = (st, .error (.valueError msg)) := by
  unfold addDocumentsWithEmbeddings
  by_cases h1 : (documents.isEmpty || embeddings.isEmpty) = true
  · exact ⟨"Documents and embeddings are required.", by rw [if_pos h1]⟩
  · exact ⟨"Documents and embeddings length mismatch.",
      by rw [if_neg h1, if_pos hlen]⟩

/-- Witness for C2: one document against zero embeddings is rejected with
the store state untouched. -/
theorem add_with_embeddings_length_mismatch_witness :
    ∃ msg, addDocumentsWithEmbeddings ⟨none, none, false⟩ [⟨"a", []⟩] [] true
        = (⟨none, none, false⟩, .error (.valueError msg)) :=
  add_with_embeddings_length_mismatch ⟨none, none, false⟩ [⟨"a", []⟩] [] true
    (by decide)

/-- A concrete loaded store used to exhibit the early-return path of
`get_or_create`. -/
def exVectorStore : VectorStore := ⟨[("id1", ⟨"text", []⟩)], 1⟩

/-- A manager state whose in-memory handle is set while the persist
directory does not exist on disk. -/
def exStateLoaded : ManagerState := ⟨some exVectorStore, none, false⟩

/-- Counterexample to C6 as stated: when the in-memory handle already
exists, `get_or_create` returns before `os.makedirs`, so a missing
persist directory is not created — refuting "in every case the persist
directory is created on disk if missing". -/
theorem get_or_create_skips_makedirs_counterexample :
    exStateLoaded.dirExists = false
    ∧ getOrCreate exStateLoaded = (exStateLoaded, some exVectorStore)
    ∧ (getOrCreate exStateLoaded).1.dirExists = false :=
  ⟨rfl, rfl, rfl⟩

/-- C6 (amended): if the in-memory handle exists it is returned with the
state unchanged (and no directory creation happens on that path);
otherwise the persist directory is created, the index is loaded from disk
iff the on-disk index artifact exists, and the handle is left `None`
otherwise — never an error. -/
theorem get_or_create_spec (st : ManagerState) :
    (∀ vs, st.store = some vs → getOrCreate st = (st, some vs))
    ∧ (st.store = none →
        (getOrCreate st).1.dirExists = true
        ∧ (getOrCreate st).1.store = st.disk
        ∧ (getOrCreate st).2 = st.disk
        ∧ (getOrCreate st).1.disk = st.disk) := by
  constructor
  · intro vs h
    simp [getOrCreate, h]
  · intro h
    cases hd : st.disk with
    | some d => simp [getOrCreate, h, hd]
    | none => simp [getOrCreate, h, hd]

/-- Witness for the amended C6: both branches evaluated at concrete
states — a set handle is returned unchanged; an unset handle with no disk
artifact creates the directory and stays `None`. -/
theorem get_or_create_spec_witness :
    getOrCreate exStateLoaded = (exStateLoaded, some exVectorStore)
    ∧ ((getOrCreate ⟨none, none, false⟩).1.dirExists = true
        ∧ (getOrCreate ⟨none, none, false⟩).1.store = none
        ∧ (getOrCreate ⟨none, none, false⟩).2 = none
        ∧ (getOrCreate ⟨none, none, false⟩).1.disk = none) :=
  ⟨(get_or_create_spec exStateLoaded).1 exVectorStore rfl,
   (get_or_create_spec ⟨none, none, false⟩).2 rfl⟩

theorem enrichChunk_metadata (N : Nat) (p : Nat × Doc) :
    (enrichChunk N p).metadata
      = mset (mset p.2.metadata "chunk_id" (MetaVal.int (Int.ofNat p.1)))
          "total_chunks" (MetaVal.int (Int.ofNat N)) := rfl

theorem enrichChunk_chunk_id (N : Nat) (p : Nat × Doc) :
    mget (enrichChunk N p).metadata "chunk_id"
      = some (MetaVal.int (Int.ofNat p.1)) := by
  rw [enrichChunk_metadata, mget_mset_other _ _ _ _ (by decide),
    mget_mset_same]

theorem enrichChunk_total_chunks (N : Nat) (p : Nat × Doc) :
    mget (enrichChunk N p).metadata "total_chunks"
      = some (MetaVal.int (Int.ofNat N)) := by
  rw [enrichChunk_metadata, mget_mset_same]

theorem enrichChunk_other_key (N : Nat) (p : Nat × Doc) (k : String)
    (h1 : k ≠ "chunk_id") (h2 : k ≠ "total_chunks") :
    mget (enrichChunk N p).metadata k = mget p.2.metadata k := by
  rw [enrichChunk_metadata, mget_mset_other _ _ _ _ h2,
    mget_mset_other _ _ _ _ h1]

theorem enumFrom_enrich_chunk_ids (N : Nat) :
    ∀ (l : List Doc) (n : Nat),
      (((List.enumFrom n l).map (enrichChunk N)).map
          (fun c => mget c.metadata "chunk_id"))
        = (List.range' n l.length).map (fun (i : Nat) => some (MetaVal.int (Int.ofNat i)))
  | [], _ => rfl
  | d :: t, n => by
      simp only [List.enumFrom, List.map_cons, List.length_cons]
      rw [show List.range' n (t.length + 1)
            = n :: List.range' (n + 1) t.length from rfl]
      rw [List.map_cons, enrichChunk_chunk_id,
        enumFrom_enrich_chunk_ids N t (n + 1)]

/-- C7: every record that splits into `N` chunks yields chunks carrying
`chunk_id` values exactly `0..N-1` in order, each with
`total_chunks == N`, and each chunk inherits all other metadata of its
parent (in particular its `source`).  The splitter is the external
collaborator; its contract is that split pieces carry a copy of the
parent's metadata. -/
theorem chunk_invariant (split : Doc → List Doc) (documents : List Doc)
    (d : Doc) (hd : d ∈ documents)
    (hmeta : ∀ c ∈ split d, c.metadata = d.metadata) :
    (∃ pre post, chunkDocuments split documents
        = pre ++ ((split d).enum).map (enrichChunk (split d).length) ++ post)
    ∧ (((split d).enum).map (enrichChunk (split d).length)).map
          (fun c => mget c.metadata "chunk_id")
        = (List.range (split d).length).map (fun (i : Nat) => some (MetaVal.int (Int.ofNat i)))
    ∧ (∀ c ∈ ((split d).enum).map (enrichChunk (split d).length),
        mget c.metadata "total_chunks" = some (MetaVal.int (split d).length))
    ∧ (∀ c ∈ ((split d).enum).map (enrichChunk (split d).length),
        ∀ k, k ≠ "chunk_id" → k ≠ "total_chunks" →
          mget c.metadata k = mget d.metadata k) := by
  refine ⟨?_, ?_, ?_, ?_⟩
  · obtain ⟨s, t, rfl⟩ := List.append_of_mem hd
    refine ⟨s.flatMap (fun doc =>
        ((split doc).enum).map (enrichChunk (split doc).length)),
      t.flatMap (fun doc =>
        ((split doc).enum).map (enrichChunk (split doc).length)), ?_⟩
    unfold chunkDocuments
    rw [if_neg (by simp)]
    simp only [List.flatMap_append, List.flatMap_cons, List.append_assoc]
  · rw [show (split d).enum = List.enumFrom 0 (split d) from rfl,
      enumFrom_enrich_chunk_ids, List.range_eq_range']
  · intro c hc
    obtain ⟨p, hp, rfl⟩ := List.mem_map.mp hc
    exact enrichChunk_total_chunks _ _
  · intro c hc k h1 h2
    obtain ⟨p, hp, rfl⟩ := List.mem_map.mp hc
    rw [enrichChunk_other_key _ _ _ h1 h2,
      hmeta p.2 (List.snd_mem_of_mem_enumFrom hp)]

/-- A concrete splitter for the C7 witness: two fixed pieces carrying the
parent's metadata. -/
def exSplit : Doc → List Doc :=
  fun d => [⟨"AAAA", d.metadata⟩, ⟨"BB", d.metadata⟩]

/-- A concrete parent record for the C7 witness. -/
def exParent : Doc := ⟨"AAAABB", [("source", .str "doc1.txt")]⟩

/-- Witness for C7 at a concrete record split into two chunks. -/
theorem chunk_invariant_witness :
    (∃ pre post, chunkDocuments exSplit [exParent]
        = pre ++ ((exSplit exParent).enum).map
            (enrichChunk (exSplit exParent).length) ++ post)
    ∧ (((exSplit exParent).enum).map
          (enrichChunk (exSplit exParent).length)).map
          (fun c => mget c.metadata "chunk_id")
        = (List.range (exSplit exParent).length).map
            (fun (i : Nat) => some (MetaVal.int (Int.ofNat i)))
    ∧ (∀ c ∈ ((exSplit exParent).enum).map
          (enrichChunk (exSplit exParent).length),
        mget c.metadata "total_chunks"
          = some (MetaVal.int (exSplit exParent).length))
    ∧ (∀ c ∈ ((exSplit exParent).enum).map
          (enrichChunk (exSplit exParent).length),
        ∀ k, k ≠ "chunk_id" → k ≠ "total_chunks" →
          mget c.metadata k = mget exParent.metadata k) :=
  chunk_invariant exSplit [exParent] exParent (by decide) (by decide)

/-- Concrete external pipeline handle used to exhibit C8's gap. -/
def exLoadRetr : Unit → Retr := fun _ => ⟨fun _ => []⟩

/-- Counterexample to C8 as stated: `Retriever.call_retriever`
(`retrieval.py`) performs no empty-query validation — on the empty query
it proceeds straight to invoking the pipeline instead of failing with
`InvalidInput`. -/
theorem call_retriever_no_empty_query_check :
    callRetriever exLoadRetr "" = .ok [] := rfl

/-- C8 (amended): the three `retriever.py` entry points
(`SimpleRAGRetriever`, `SimpleRAGRetrieverWithMMR`,
`SimpleRAGRetrieverWithThreshold`) reject an empty query with
`InvalidInput` (`ValueError`) before any retriever construction, index
access or embedding (the result does not depend on the cached handle or
the external `as_retriever` collaborator); `Retriever.call_retriever`
performs no such validation. -/
theorem retrieve_empty_query_invalid_input (cached : Option Retr)
    (asR : Unit → Retr) (loadR : Unit → Retr) :
    simpleRetrieve cached asR "" = .error (.valueError "Query cannot be empty.")
    ∧ mmrRetrieve cached asR "" = .error (.valueError "Query cannot be empty.")
    ∧ thresholdRetrieve cached asR ""
        = .error (.valueError "Query cannot be empty.")
    ∧ callRetriever loadR "" = .ok ((loadR ()).invoke "") :=
  ⟨rfl, rfl, rfl, rfl⟩

/-- Concrete external `as_retriever` collaborator for the C9 witness. -/
def exAsRetr : Unit → Retr := fun _ => ⟨fun _ => []⟩

/-- C9: on a freshly constructed retriever (no cached handle), none of
the three `retriever.py` strategies can ever return results: an empty
query fails the validation check, and any non-empty query reaches
`vector_store_manager.get_vector_store()`, an attribute
`VectorStoreManager` does not define (its resolver is `get_or_create`),
raising `AttributeError` before any index access. -/
theorem retrievers_never_return_results (asR : Unit → Retr) (q : String) :
    (∀ docs, simpleRetrieve none asR q ≠ .ok docs)
    ∧ (∀ docs, mmrRetrieve none asR q ≠ .ok docs)
    ∧ (∀ docs, thresholdRetrieve none asR q ≠ .ok docs)
    ∧ (q ≠ "" →
        simpleRetrieve none asR q = .error (.attributeError "get_vector_store")
        ∧ mmrRetrieve none asR q = .error (.attributeError "get_vector_store")
        ∧ thresholdRetrieve none asR q
            = .error (.attributeError "get_vector_store")) := by
  by_cases hq : q = ""
  · subst hq
    exact ⟨fun docs h => by simp [simpleRetrieve] at h,
           fun docs h => by simp [mmrRetrieve] at h,
           fun docs h => by simp [thresholdRetrieve] at h,
           fun h => absurd rfl h⟩
  · have h1 : simpleRetrieve none asR q
        = .error (.attributeError "get_vector_store") := by
      unfold simpleRetrieve
      rw [if_neg hq]
      rfl
    have h2 : mmrRetrieve none asR q
        = .error (.attributeError "get_vector_store") := by
      unfold mmrRetrieve
      rw [if_neg hq]
      rfl
    have h3 : thresholdRetrieve none asR q
        = .error (.attributeError "get_vector_store") := by
      unfold thresholdRetrieve
      rw [if_neg hq]
      rfl
    exact ⟨(fun docs h => by rw [h1] at h; cases h),
           (fun docs h => by rw [h2] at h; cases h),
           (fun docs h => by rw [h3] at h; cases h),
           (fun _ => ⟨h1, h2, h3⟩)⟩

/-- Witness for C9 at a concrete non-empty query: all three strategies
fail with the `get_vector_store` attribute error. -/
theorem retrievers_never_return_results_witness :
    simpleRetrieve none exAsRetr "hello"
        = .error (.attributeError "get_vector_store")
    ∧ mmrRetrieve none exAsRetr "hello"
        = .error (.attributeError "get_vector_store")
    ∧ thresholdRetrieve none exAsRetr "hello"
        = .error (.attributeError "get_vector_store") :=
  (retrievers_never_return_results exAsRetr "hello").2.2.2 (by decide)

/-! ### Lemmas about the id/docstore bookkeeping -/

theorem mem_zip_map_self {α β : Type} (f : α → β) :
    ∀ {l : List α} {p : α × β}, p ∈ l.zip (l.map f) → p.2 = f p.1 ∧ p.1 ∈ l := by
  intro l
  induction l with
  | nil => intro p h; cases h
  | cons a t ih =>
    intro p h
    rw [List.map_cons, List.zip_cons_cons] at h
    rcases List.mem_cons.mp h with h | h
    · subst h; exact ⟨rfl, List.mem_cons_self a t⟩
    · obtain ⟨h1, h2⟩ := ih h
      exact ⟨h1, List.mem_cons_of_mem a h2⟩

theorem zip_map_self_mem {α β : Type} (f : α → β) :
    ∀ {l : List α} {a : α}, a ∈ l → (a, f a) ∈ l.zip (l.map f) := by
  intro l
  induction l with
  | nil => intro a ha; cases ha
  | cons b t ih =>
    intro a ha
    rw [List.map_cons, List.zip_cons_cons]
    rcases List.mem_cons.mp ha with h | h
    · subst h; exact List.mem_cons_self _ _
    · exact List.mem_cons_of_mem _ (ih h)

theorem attachUids_length (docs : List Doc) (ids : List String)
    (h : ids.length = docs.length) :
    (attachUids docs ids).length = docs.length := by
  unfold attachUids
  rw [List.length_map, List.length_zip, h, Nat.min_self]

theorem dictInsert_key_sub (m : List (String × Doc)) (k : String) (v : Doc)
    {p : String × Doc} (hp : p ∈ dictInsert m k v) :
    p.1 ∈ m.map Prod.fst ∨ p.1 = k := by
  unfold dictInsert at hp
  by_cases h : m.any (fun q => q.1 == k) = true
  · rw [if_pos h] at hp
    obtain ⟨q, hq, hq2⟩ := List.mem_map.mp hp
    by_cases h2 : (q.1 == k) = true
    · rw [if_pos h2] at hq2
      subst hq2
      exact Or.inr rfl
    · rw [if_neg h2] at hq2
      subst hq2
      exact Or.inl (List.mem_map_of_mem Prod.fst hq)
  · rw [if_neg h] at hp
    rcases List.mem_append.mp hp with h1 | h1
    · exact Or.inl (List.mem_map_of_mem Prod.fst h1)
    · rw [List.mem_singleton.mp h1]
      exact Or.inr rfl

theorem dictInsert_keys_sub (m : List (String × Doc)) (k : String) (v : Doc)
    {x : String} (hx : x ∈ (dictInsert m k v).map Prod.fst) :
    x ∈ m.map Prod.fst ∨ x = k := by
  obtain ⟨p, hp, rfl⟩ := List.mem_map.mp hx
  exact dictInsert_key_sub m k v hp

theorem dictInsert_key_mem (m : List (String × Doc)) (k : String) (v : Doc) :
    k ∈ (dictInsert m k v).map Prod.fst := by
  unfold dictInsert
  by_cases h : m.any (fun q => q.1 == k) = true
  · rw [if_pos h]
    obtain ⟨q, hq, hq2⟩ := List.any_eq_true.mp h
    refine List.mem_map.mpr
      ⟨if q.1 == k then (k, v) else q, List.mem_map_of_mem _ hq, ?_⟩
    rw [if_pos hq2]
  · rw [if_neg h, List.map_append]
    exact List.mem_append.mpr (Or.inr (by simp))

theorem dictInsert_key_preserve (m : List (String × Doc)) (k : String)
    (v : Doc) {x : String} (hx : x ∈ m.map Prod.fst) :
    x ∈ (dictInsert m k v).map Prod.fst := by
  by_cases hxk : x = k
  · subst hxk; exact dictInsert_key_mem m x v
  · unfold dictInsert
    by_cases h : m.any (fun q => q.1 == k) = true
    · rw [if_pos h]
      obtain ⟨q, hq, hq2⟩ := List.mem_map.mp hx
      have h2 : ¬ ((q.1 == k) = true) := by
        rw [hq2]
        simp
        exact hxk
      refine List.mem_map.mpr
        ⟨if q.1 == k then (k, v) else q, List.mem_map_of_mem _ hq, ?_⟩
      rw [if_neg h2]
      exact hq2
    · rw [if_neg h, List.map_append]
      exact List.mem_append.mpr (Or.inl hx)

theorem foldl_dictInsert_keys_sub :
    ∀ (l acc : List (String × Doc)) {x : String},
      x ∈ (l.foldl (fun m q => dictInsert m q.1 q.2) acc).map Prod.fst →
      x ∈ acc.map Prod.fst ∨ x ∈ l.map Prod.fst
  | [], acc, x, hx => Or.inl hx
  | q :: t, acc, x, hx => by
      rw [List.foldl_cons] at hx
      rcases foldl_dictInsert_keys_sub t (dictInsert acc q.1 q.2) hx with h | h
      · rcases dictInsert_keys_sub acc q.1 q.2 h with h2 | h2
        · exact Or.inl h2
        · exact Or.inr (by rw [List.map_cons, h2]; exact List.mem_cons_self _ _)
      · exact Or.inr (by rw [List.map_cons]; exact List.mem_cons_of_mem _ h)

theorem foldl_dictInsert_keys_sup :
    ∀ (l acc : List (String × Doc)) {x : String},
      x ∈ acc.map Prod.fst ∨ x ∈ l.map Prod.fst →
      x ∈ (l.foldl (fun m q => dictInsert m q.1 q.2) acc).map Prod.fst
  | [], acc, x, hx => by
      rcases hx with h | h
      · exact h
      · cases h
  | q :: t, acc, x, hx => by
      rw [List.foldl_cons]
      apply foldl_dictInsert_keys_sup t
      rcases hx with h | h
      · exact Or.inl (dictInsert_key_preserve acc q.1 q.2 h)
      · rw [List.map_cons] at h
        rcases List.mem_cons.mp h with h2 | h2
        · exact Or.inl (h2 ▸ dictInsert_key_mem acc q.1 q.2)
        · exact Or.inr h2

theorem dictOfPairs_keys_sub (l : List (String × Doc)) {x : String}
    (hx : x ∈ (dictOfPairs l).map Prod.fst) : x ∈ l.map Prod.fst := by
  rcases foldl_dictInsert_keys_sub l [] hx with h | h
  · cases h
  · exact h

theorem dictOfPairs_keys_sup (l : List (String × Doc)) {x : String}
    (hx : x ∈ l.map Prod.fst) : x ∈ (dictOfPairs l).map Prod.fst :=
  foldl_dictInsert_keys_sup l [] (Or.inr hx)

theorem faissAdd_ok_of_fresh (vs : VectorStore) (docs : List Doc)
    (ids : List String) (hlen : ids.length ≤ docs.length)
    (hfresh : ∀ i ∈ ids, ¬ i ∈ existingIds vs) :
    faissAdd vs docs ids
      = .ok { docstore := vs.docstore ++ dictOfPairs (ids.zip docs),
              ntotal := vs.ntotal + docs.length } := by
  unfold faissAdd
  rw [if_neg]
  intro hcond
  obtain ⟨p, hp, hp2⟩ := List.any_eq_true.mp hcond
  obtain ⟨q, hq, hq2⟩ := List.any_eq_true.mp hp2
  have hkey : p.1 ∈ (ids.zip docs).map Prod.fst :=
    dictOfPairs_keys_sub _ (List.mem_map_of_mem Prod.fst hp)
  rw [List.map_fst_zip ids docs hlen] at hkey
  apply hfresh p.1 hkey
  have hpq : q.1 = p.1 := by simpa using hq2
  rw [← hpq]
  exact List.mem_map_of_mem Prod.fst hq

theorem persistStore_store (st : ManagerState) :
    (persistStore st).store = st.store := by
  unfold persistStore
  cases hs : st.store with
  | none => exact hs
  | some vs => rfl

theorem add_all_present (st : ManagerState) (docs : List Doc)
    (vs : VectorStore) (hne : docs.isEmpty = false)
    (hst : (getOrCreate st).1.store = some vs)
    (hall : ∀ d ∈ docs, makeChunkUid d ∈ existingIds vs) :
    addDocuments st docs true = ((getOrCreate st).1, .ok vs) := by
  have hkept : (docs.zip (docs.map makeChunkUid)).filter
      (fun p => !((existingIds vs).contains p.2)) = [] := by
    rw [List.filter_eq_nil_iff]
    intro p hp
    obtain ⟨h1, h2⟩ := mem_zip_map_self makeChunkUid hp
    simp
    rw [h1]
    exact hall p.1 h2
  unfold addDocuments
  rw [if_neg (by simp [hne])]
  simp only [hst, hkept, List.isEmpty_nil, if_true]

theorem add_ok_store_and_ids (st : ManagerState) (docs : List Doc)
    (st1 : ManagerState) (vs1 : VectorStore)
    (h : addDocuments st docs true = (st1, .ok vs1)) :
    st1.store = some vs1
    ∧ ∀ d ∈ docs, makeChunkUid d ∈ existingIds vs1 := by
  unfold addDocuments at h
  split at h
  · exact absurd (congrArg Prod.snd h) (by simp)
  · dsimp only at h
    split at h
    · rename_i vs hst htt
      split at h
      · rename_i hke
        injection h with hfst hsnd
        injection hsnd with hv
        refine ⟨?_, ?_⟩
        · rw [← hfst, hst, hv]
        · intro d hd
          rw [← hv]
          have hnil := List.isEmpty_iff.mp hke
          have hall := List.filter_eq_nil_iff.mp hnil
          have hmem := hall _ (zip_map_self_mem makeChunkUid hd)
          simpa using hmem
      · rename_i hke
        split at h
        · exact absurd (congrArg Prod.snd h) (by simp)
        · rename_i vs' hfa
          injection h with hfst hsnd
          injection hsnd with hv
          unfold faissAdd at hfa
          dsimp only at hfa
          split at hfa
          · simp at hfa
          · rename_i hcond
            injection hfa with hrec
            refine ⟨?_, ?_⟩
            · rw [← hfst, persistStore_store]
              show some vs' = some vs1
              rw [hv]
            · intro d hd
              rw [← hv, ← hrec]
              show makeChunkUid d
                ∈ (vs.docstore ++ dictOfPairs _).map Prod.fst
              rw [List.map_append]
              by_cases hc : makeChunkUid d ∈ existingIds vs
              · exact List.mem_append.mpr (Or.inl hc)
              · apply List.mem_append.mpr
                apply Or.inr
                apply dictOfPairs_keys_sup
                have hp : (d, makeChunkUid d)
                    ∈ (docs.zip (docs.map makeChunkUid)).filter
                      (fun p => !((existingIds vs).contains p.2)) := by
                  apply List.mem_filter.mpr
                  refine ⟨zip_map_self_mem makeChunkUid hd, ?_⟩
                  simp
                  exact hc
                rw [List.map_fst_zip]
                · exact List.mem_map_of_mem (fun p => p.2) hp
                · rw [attachUids_length _ _
                    (by rw [List.length_map, List.length_map])]
                  rw [List.length_map, List.length_map]
    · rename_i vs hst hff
      simp at hff
    · rename_i hst
      injection h with hfst hsnd
      injection hsnd with hv
      refine ⟨?_, ?_⟩
      · rw [← hfst, persistStore_store]
        show some (faissFromDocuments
          (attachUids docs (docs.map makeChunkUid))
          (docs.map makeChunkUid)) = some vs1
        rw [hv]
      · intro d hd
        rw [← hv]
        show makeChunkUid d
          ∈ (dictOfPairs ((docs.map makeChunkUid).zip
              (attachUids docs (docs.map makeChunkUid)))).map Prod.fst
        apply dictOfPairs_keys_sup
        rw [List.map_fst_zip]
        · exact List.mem_map_of_mem makeChunkUid hd
        · rw [attachUids_length _ _ (List.length_map _ _), List.length_map]

/-- C1: with `deduplicate=true`, re-adding an already ingested batch is a
no-op.  First conjunct: when every chunk's `chunk_uid` is already among
the stored ids, `add_documents` returns the resolved state and the
existing index unchanged.  Second conjunct: after any successful
ingestion of a non-empty batch, adding the same batch again returns the
same state and index, and `count()` is unchanged. -/
theorem idempotent_ingestion (st : ManagerState) (docs : List Doc)
    (hne : docs ≠ []) :
    (∀ vs, (getOrCreate st).1.store = some vs →
      (∀ d ∈ docs, makeChunkUid d ∈ existingIds vs) →
      addDocuments st docs true = ((getOrCreate st).1, .ok vs))
    ∧ (∀ st1 vs1, addDocuments st docs true = (st1, .ok vs1) →
        addDocuments st1 docs true = (st1, .ok vs1)
        ∧ (countStore ((addDocuments st1 docs true).1)).2
            = (countStore st1).2) := by
  have hemp : docs.isEmpty = false := by
    cases docs with
    | nil => exact absurd rfl hne
    | cons a t => rfl
  constructor
  · intro vs hst hall
    exact add_all_present st docs vs hemp hst hall
  · intro st1 vs1 h
    obtain ⟨hstore, hall⟩ := add_ok_store_and_ids st docs st1 vs1 h
    have hgoc : (getOrCreate st1).1 = st1 := by
      unfold getOrCreate
      rw [hstore]
    have h2 : addDocuments st1 docs true = (st1, .ok vs1) := by
      have h3 := add_all_present st1 docs vs1 hemp
        (by rw [hgoc]; exact hstore) hall
      rwa [hgoc] at h3
    refine ⟨h2, ?_⟩
    rw [h2]

/-- The document of the C1 witness. -/
def wDoc : Doc := ⟨"hello", [("file_name", .str "a.txt"), ("chunk_id", .int 0)]⟩

/-- A store already holding the C1 witness document under its uid. -/
def wVS : VectorStore := ⟨[(makeChunkUid wDoc, wDoc)], 1⟩

/-- Witness for C1: re-adding a batch whose single chunk is already
stored returns the existing index unchanged. -/
theorem idempotent_ingestion_witness :
    addDocuments ⟨some wVS, none, true⟩ [wDoc] true
      = ((getOrCreate ⟨some wVS, none, true⟩).1, .ok wVS) :=
  (idempotent_ingestion ⟨some wVS, none, true⟩ [wDoc] (by decide)).1
    wVS rfl (by decide)

theorem add_create_result (st : ManagerState) (docs : List Doc)
    (hne : docs.isEmpty = false)
    (hst : (getOrCreate st).1.store = none) :
    (addDocuments st docs true).2
      = .ok (faissFromDocuments (attachUids docs (docs.map makeChunkUid))
          (docs.map makeChunkUid)) := by
  unfold addDocuments
  rw [if_neg (by simp [hne])]
  dsimp only
  rw [hst]

theorem add_append_fresh_result (st : ManagerState) (docs : List Doc)
    (vs : VectorStore) (hne : docs.isEmpty = false)
    (hst : (getOrCreate st).1.store = some vs)
    (hfresh : ∀ d ∈ docs, ¬ makeChunkUid d ∈ existingIds vs) :
    (addDocuments st docs true).2
      = .ok ⟨vs.docstore ++ dictOfPairs ((docs.map makeChunkUid).zip
            (attachUids docs (docs.map makeChunkUid))),
          vs.ntotal + (attachUids docs (docs.map makeChunkUid)).length⟩ := by
  have hfilter : (docs.zip (docs.map makeChunkUid)).filter
      (fun p => !((existingIds vs).contains p.2))
        = docs.zip (docs.map makeChunkUid) := by
    rw [List.filter_eq_self]
    intro p hp
    obtain ⟨h1, h2⟩ := mem_zip_map_self makeChunkUid hp
    simp
    rw [h1]
    exact hfresh p.1 h2
  have hkeptne : (docs.zip (docs.map makeChunkUid)).isEmpty = false := by
    cases docs with
    | nil => simp at hne
    | cons a t => rfl
  have hm1 : (docs.zip (docs.map makeChunkUid)).map (fun p => p.1) = docs :=
    List.map_fst_zip _ _ (by rw [List.length_map])
  have hm2 : (docs.zip (docs.map makeChunkUid)).map (fun p => p.2)
      = docs.map makeChunkUid :=
    List.map_snd_zip _ _ (by rw [List.length_map])
  have hfreshIds : ∀ i ∈ docs.map makeChunkUid, ¬ i ∈ existingIds vs := by
    intro i hi
    obtain ⟨d, hd, rfl⟩ := List.mem_map.mp hi
    exact hfresh d hd
  unfold addDocuments
  rw [if_neg (by simp [hne])]
  dsimp only
  rw [hst]
  dsimp only
  rw [hfilter, hkeptne]
  rw [hm1, hm2]
  rw [faissAdd_ok_of_fresh vs _ _
    (by rw [attachUids_length _ _ (List.length_map _ _), List.length_map])
    hfreshIds]
  rfl

theorem add_emb_create_result (st : ManagerState) (docs : List Doc)
    (embs : List (List Int)) (hne : docs.isEmpty = false)
    (hlen : docs.length = embs.length)
    (hst : (getOrCreate st).1.store = none) :
    (addDocumentsWithEmbeddings st docs embs true).2
      = .ok (faissFromDocuments (attachUids docs (docs.map makeChunkUid))
          (docs.map makeChunkUid)) := by
  have hembs : embs.isEmpty = false := by
    cases embs with
    | nil =>
      rw [List.length_nil] at hlen
      rw [List.length_eq_zero.mp hlen] at hne
      simp at hne
    | cons a t => rfl
  unfold addDocumentsWithEmbeddings
  rw [if_neg (by simp [hne, hembs]), if_neg (fun hh => hh hlen)]
  dsimp only
  rw [hst]

/-- C10: deduplication only filters against ids already stored before the
call.  When no index exists yet, no dedup filtering happens at all: every
chunk of the first batch — duplicates included — is inserted, for both
`add_documents` and `add_documents_with_embeddings` (`count` rises by the
full batch length).  When an index exists and no chunk uid of the batch
is already stored, every chunk — in-batch duplicates included — is
inserted. -/
theorem dedup_only_filters_preexisting (st : ManagerState)
    (docs : List Doc) (embs : List (List Int)) (hne : docs ≠ [])
    (hlen : docs.length = embs.length) :
    ((getOrCreate st).1.store = none →
      (∃ vs1, (addDocuments st docs true).2 = .ok vs1
        ∧ vs1.ntotal = docs.length)
      ∧ (∃ vs1, (addDocumentsWithEmbeddings st docs embs true).2 = .ok vs1
          ∧ vs1.ntotal = docs.length))
    ∧ (∀ vs, (getOrCreate st).1.store = some vs →
        (∀ d ∈ docs, ¬ makeChunkUid d ∈ existingIds vs) →
        ∃ vs1, (addDocuments st docs true).2 = .ok vs1
          ∧ vs1.ntotal = vs.ntotal + docs.length) := by
  have hemp : docs.isEmpty = false := by
    cases docs with
    | nil => exact absurd rfl hne
    | cons a t => rfl
  constructor
  · intro hst
    constructor
    · refine ⟨_, add_create_result st docs hemp hst, ?_⟩
      show (attachUids docs (docs.map makeChunkUid)).length = docs.length
      exact attachUids_length _ _ (List.length_map _ _)
    · refine ⟨_, add_emb_create_result st docs embs hemp hlen hst, ?_⟩
      show (attachUids docs (docs.map makeChunkUid)).length = docs.length
      exact attachUids_length _ _ (List.length_map _ _)
  · intro vs hst hfresh
    refine ⟨_, add_append_fresh_result st docs vs hemp hst hfresh, ?_⟩
    show vs.ntotal + (attachUids docs (docs.map makeChunkUid)).length
      = vs.ntotal + docs.length
    rw [attachUids_length _ _ (List.length_map _ _)]

/-- A chunk that appears twice in the C10 witness batch. -/
def wDup : Doc := ⟨"dup", [("file_name", .str "d.txt"), ("chunk_id", .int 0)]⟩

/-- A store holding one unrelated id for the C10 witness append case. -/
def wOtherVS : VectorStore := ⟨[("other", ⟨"other", []⟩)], 1⟩

/-- Witness for C10: a first batch of two identical chunks yields two
stored vectors (no dedup filtering without an index), and appending the
same duplicate batch to an index that stores none of its uids inserts
both copies as well. -/
theorem dedup_only_filters_preexisting_witness :
    (∃ vs1, (addDocuments ⟨none, none, false⟩ [wDup, wDup] true).2 = .ok vs1
      ∧ vs1.ntotal = 2)
    ∧ (∃ vs1, (addDocuments ⟨some wOtherVS, none, true⟩ [wDup, wDup] true).2
          = .ok vs1
        ∧ vs1.ntotal = wOtherVS.ntotal + 2) :=
  ⟨((dedup_only_filters_preexisting ⟨none, none, false⟩ [wDup, wDup]
      [[0], [0]] (by decide) rfl).1 rfl).1,
   (dedup_only_filters_preexisting ⟨some wOtherVS, none, true⟩ [wDup, wDup]
      [[0], [0]] (by decide) rfl).2 wOtherVS rfl (by decide)⟩

end RRG
